import Mathlib

/-
Verification of the Monkey-language front end (token model, lexer, parser)
of the go-interpreter repository, as a shallow embedding in Lean.
Go strings are modelled as lists of characters (the source is byte-oriented
ASCII), Go int indices as Nat, and the NUL sentinel byte as Char.ofNat 0.
Character-consuming loops of the lexer are bounded by an explicit step
budget that provably exceeds the number of iterations any state allows
(each pass of readChar increments readPosition, and once readPosition
reaches the input length the current character becomes the sentinel, which
no loop guard accepts), so the bounded functions agree with the source
loops on every state.  The parser's statement-skipping loops can genuinely
diverge, so parsing functions take an explicit fuel argument and return
none when the fuel is exhausted before the loop exits.
-/

namespace token

/-- Token kinds are plain strings in the source (type TokenType string). -/
abbrev TokenType : Type := String

/-- Token record from token/token.go (fields Type and Literal; Type is a
reserved word in Lean, so the field is named typ here). -/
structure Token where
  typ : String
  literal : String
deriving DecidableEq, Repr

def ILLIGAL : String := "ILLEGAL"

def EOF : String := "EOF"

def IDENT : String := "IDENT"

def INT : String := "INT"

def ASSIGN : String := "="

def PLUS : String := "+"

def MINUS : String := "-"

def BANG : String := "!"

def ASTERISK : String := "*"

def SLASH : String := "/"

def LT : String := "<"

def GT : String := ">"

def EQ : String := "=="

def NOT_EQ : String := "!="

def COMMA : String := ","

def SEMICOLON : String := ";"

def LPAREN : String := "("

def RPAREN : String := ")"

def LBRACE : String := "\x7b"

def RBRACE : String := "\x7d"

def FUNCTION : String := "FUNCTION"

def LET : String := "LET"

def TRUE : String := "TRUE"

def FALSE : String := "FALSE"

def IF : String := "IF"

def ELSE : String := "ELSE"

def RETURN : String := "RETURN"

/-- Keyword table lookup from token/token.go: reserved words map to their
keyword kind, anything else is an identifier. -/
def LookupIdent (ident : String) : String :=
  if ident == "fn" then FUNCTION
  else if ident == "let" then LET
  else if ident == "true" then TRUE
  else if ident == "false" then FALSE
  else if ident == "if" then IF
  else if ident == "else" then ELSE
  else if ident == "return" then RETURN
  else IDENT

end token

namespace ast

/-- Identifier node from ast/ast.go (Token plus Value, the literal text). -/
structure Identifier where
  tok : token.Token
  value : String
deriving DecidableEq, Repr

/-- Expression nodes from ast/ast.go.  The source models these as structs
implementing the Expression interface; here they are one closed inductive. -/
inductive Expression where
  | ident (i : Identifier)
  | IntegerLiteral (tok : token.Token) (value : Int)
  | Boolean (tok : token.Token) (value : Bool)
  | PrefixExpression (tok : token.Token) (operator : String) (right : Expression)
  | InfixExpression (tok : token.Token) (left : Expression) (operator : String) (right : Expression)
deriving DecidableEq, Repr

/-- Statement nodes from ast/ast.go as one closed inductive.  The pointer
fields Value / ReturnValue / Expression may be nil in the source and are
modelled as Option. -/
inductive Statement where
  | LetStatement (tok : token.Token) (name : Identifier) (value : Option Expression)
  | ReturnStatement (tok : token.Token) (returnValue : Option Expression)
  | ExpressionStatement (tok : token.Token) (expr : Option Expression)
deriving DecidableEq, Repr

/-- Program root node: ordered list of statements. -/
structure Program where
  statements : List Statement
deriving DecidableEq, Repr

/-- Rendering of expressions, the String() methods of ast/ast.go. -/
def Expression.render : Expression → String
  | .ident i => i.value
  | .IntegerLiteral tok _ => tok.literal
  | .Boolean tok _ => tok.literal
  | .PrefixExpression _ op r => "(" ++ op ++ r.render ++ ")"
  | .InfixExpression _ l op r => "(" ++ l.render ++ " " ++ op ++ " " ++ r.render ++ ")"

/-- Rendering of an optional expression: Go prints nothing for a nil field. -/
def renderOpt : Option Expression → String
  | some e => e.render
  | none => ""

/-- Rendering of statements, the String() methods of ast/ast.go. -/
def Statement.render : Statement → String
  | .LetStatement tok name v => tok.literal ++ " " ++ name.value ++ " = " ++ renderOpt v ++ ";"
  | .ReturnStatement tok rv => tok.literal ++ " " ++ renderOpt rv ++ ";"
  | .ExpressionStatement _ e => renderOpt e

/-- Rendering of a program: concatenation of its statements, Program.String(). -/
def Program.render (p : Program) : String :=
  String.join (p.statements.map Statement.render)

end ast

namespace lexer

/-- Lexer state from lexer/lexer.go: the input, the index of the current
character, the index of the next character to read, and the current
character (the sentinel Char.ofNat 0 past the end of the input). -/
structure Lexer where
  input : List Char
  position : Nat
  readPosition : Nat
  ch : Char
deriving DecidableEq, Repr

/-- readChar from lexer/lexer.go: load the character at readPosition (the
sentinel when readPosition is past the end), move position there and
advance readPosition. -/
def readChar (l : Lexer) : Lexer :=
  { l with
    ch := if l.input.length ≤ l.readPosition then Char.ofNat 0
          else l.input.getD l.readPosition (Char.ofNat 0)
    position := l.readPosition
    readPosition := l.readPosition + 1 }

/-- New from lexer/lexer.go: all cursor fields start at zero (Go zero
values) and one readChar puts the lexer into a usable state. -/
def New (input : String) : Lexer :=
  readChar { input := input.toList, position := 0, readPosition := 0, ch := Char.ofNat 0 }

/-- peekChar from lexer/lexer.go: the character at readPosition without
advancing, the sentinel past the end. -/
def peekChar (l : Lexer) : Char :=
  if l.input.length ≤ l.readPosition then Char.ofNat 0
  else l.input.getD l.readPosition (Char.ofNat 0)

/-- isLetter from lexer/lexer.go. -/
def isLetter (ch : Char) : Bool :=
  (decide ('a' ≤ ch) && decide (ch ≤ 'z')) || (decide ('A' ≤ ch) && decide (ch ≤ 'Z')) || ch == '_'

/-- isDigit from lexer/lexer.go. -/
def isDigit (ch : Char) : Bool :=
  decide ('0' ≤ ch) && decide (ch ≤ '9')

/-- The loop guard of skipWhitespace: space, tab, newline, carriage return. -/
def isWhitespaceChar (ch : Char) : Bool :=
  ch == ' ' || ch == '\t' || ch == '\n' || ch == '\r'

/-- The loop of skipWhitespace, bounded by a step budget. -/
def skipWhitespaceAux : Nat → Lexer → Lexer
  | 0, l => l
  | fuel + 1, l => if isWhitespaceChar l.ch then skipWhitespaceAux fuel (readChar l) else l

/-- skipWhitespace from lexer/lexer.go.  The budget input.length + 2
exceeds the iteration count of the source loop from every state, so this
equals the source loop everywhere. -/
def skipWhitespace (l : Lexer) : Lexer :=
  skipWhitespaceAux (l.input.length + 2) l

/-- The loop of readIdentifier, bounded by a step budget. -/
def readIdentifierAux : Nat → Lexer → Lexer
  | 0, l => l
  | fuel + 1, l => if isLetter l.ch then readIdentifierAux fuel (readChar l) else l

/-- readIdentifier from lexer/lexer.go: consume a maximal run of letters
and return the slice input[start:position] together with the
advanced lexer. -/
def readIdentifier (l : Lexer) : String × Lexer :=
  let l2 := readIdentifierAux (l.input.length + 2) l
  (String.mk ((l.input.drop l.position).take (l2.position - l.position)), l2)

/-- The loop of readNumber, bounded by a step budget. -/
def readNumberAux : Nat → Lexer → Lexer
  | 0, l => l
  | fuel + 1, l => if isDigit l.ch then readNumberAux fuel (readChar l) else l

/-- readNumber from lexer/lexer.go: consume a maximal run of digits and
return the slice input[start:position] together with the advanced lexer. -/
def readNumber (l : Lexer) : String × Lexer :=
  let l2 := readNumberAux (l.input.length + 2) l
  (String.mk ((l.input.drop l.position).take (l2.position - l.position)), l2)

/-- newToken from lexer/lexer.go: a one-character token. -/
def newToken (tokenType : String) (ch : Char) : token.Token :=
  { typ := tokenType, literal := String.mk [ch] }

/-- NextToken from lexer/lexer.go: skip whitespace, dispatch on the current
character, and (except on the identifier and number paths, which already
advanced past their run) advance once before returning.  The brace
characters are written Char.ofNat 123 and Char.ofNat 125. -/
def NextToken (l : Lexer) : token.Token × Lexer :=
  let l := skipWhitespace l
  if l.ch == '=' then
    if peekChar l == '=' then
      let c := l.ch
      let l2 := readChar l
      ({ typ := token.EQ, literal := String.mk [c, l2.ch] }, readChar l2)
    else (newToken token.ASSIGN l.ch, readChar l)
  else if l.ch == '+' then (newToken token.PLUS l.ch, readChar l)
  else if l.ch == '-' then (newToken token.MINUS l.ch, readChar l)
  else if l.ch == '!' then
    if peekChar l == '=' then
      let c := l.ch
      let l2 := readChar l
      ({ typ := token.NOT_EQ, literal := String.mk [c, l2.ch] }, readChar l2)
    else (newToken token.BANG l.ch, readChar l)
  else if l.ch == '/' then (newToken token.SLASH l.ch, readChar l)
  else if l.ch == '*' then (newToken token.ASTERISK l.ch, readChar l)
  else if l.ch == '<' then (newToken token.LT l.ch, readChar l)
  else if l.ch == '>' then (newToken token.GT l.ch, readChar l)
  else if l.ch == ';' then (newToken token.SEMICOLON l.ch, readChar l)
  else if l.ch == ',' then (newToken token.COMMA l.ch, readChar l)
  else if l.ch == '(' then (newToken token.LPAREN l.ch, readChar l)
  else if l.ch == ')' then (newToken token.RPAREN l.ch, readChar l)
  else if l.ch == Char.ofNat 123 then (newToken token.LBRACE l.ch, readChar l)
  else if l.ch == Char.ofNat 125 then (newToken token.RBRACE l.ch, readChar l)
  else if l.ch == Char.ofNat 0 then ({ typ := token.EOF, literal := "" }, readChar l)
  else if isLetter l.ch then
    let r := readIdentifier l
    ({ typ := token.LookupIdent r.1, literal := r.1 }, r.2)
  else if isDigit l.ch then
    let r := readNumber l
    ({ typ := token.INT, literal := r.1 }, r.2)
  else (newToken token.ILLIGAL l.ch, readChar l)

/-- The lexer has consumed all of its input: the cursor is past the end,
the two cursors are in the normal relation, and the current character is
the sentinel. -/
def atEnd (l : Lexer) : Prop :=
  l.input.length ≤ l.position ∧ l.readPosition = l.position + 1 ∧ l.ch = Char.ofNat 0

instance (l : Lexer) : Decidable (atEnd l) :=
  inferInstanceAs (Decidable (_ ∧ _ ∧ _))

/-- The lexer state after n calls of NextToken. -/
def lexSteps (l : Lexer) : Nat → Lexer
  | 0 => l
  | n + 1 => (NextToken (lexSteps l n)).2

end lexer

namespace parser

/-- Parser state from parser/parser.go: the lexer, the current and peek
tokens, and the accumulated diagnostic strings. -/
structure Parser where
  l : lexer.Lexer
  curToken : token.Token
  peekToken : token.Token
  errors : List String
deriving DecidableEq, Repr

/-- Parser.nextToken from parser/parser.go: the peek token becomes current
and the lexer supplies a fresh peek token. -/
def nextToken (p : Parser) : Parser :=
  { l := (lexer.NextToken p.l).2
    curToken := p.peekToken
    peekToken := (lexer.NextToken p.l).1
    errors := p.errors }

/-- New from parser/parser.go: start from Go zero-value tokens and read two
tokens so curToken and peekToken are both set. -/
def New (l : lexer.Lexer) : Parser :=
  nextToken (nextToken { l := l, curToken := { typ := "", literal := "" }, peekToken := { typ := "", literal := "" }, errors := [] })

/-- Parser.curTokenIs from parser/parser.go. -/
def curTokenIs (p : Parser) (t : token.TokenType) : Bool :=
  p.curToken.typ == t

/-- Parser.peekTokenIs from parser/parser.go. -/
def peekTokenIs (p : Parser) (t : token.TokenType) : Bool :=
  p.peekToken.typ == t

/-- Parser.peekError from parser/parser.go: append the expected-versus-got
diagnostic built by fmt.Sprintf. -/
def peekError (t : token.TokenType) (p : Parser) : Parser :=
  { p with errors := p.errors ++ ["expected next token to be " ++ t ++ ", got " ++ p.peekToken.typ ++ " instead"] }

/-- Parser.expectPeek from parser/parser.go: advance on a match, otherwise
record a diagnostic; the Bool is the Go return value and the Parser the
mutated receiver. -/
def expectPeek (t : token.TokenType) (p : Parser) : Bool × Parser :=
  if peekTokenIs p t then (true, nextToken p) else (false, peekError t p)

/-- The statement-skipping loop shared by parseLetStatement and
parseReturnStatement in parser/parser.go: advance until the current token
is a semicolon.  The loop has no end-of-input check, so it can run forever;
none means the loop did not exit within the given fuel. -/
def skipToSemicolon : Nat → Parser → Option Parser
  | 0, _ => none
  | fuel + 1, p => if curTokenIs p token.SEMICOLON then some p else skipToSemicolon fuel (nextToken p)

/-- parseLetStatement from parser/parser.go: expect an identifier, then an
assignment token, then (expressions being skipped with a TODO in the
source) advance to the next semicolon; the Value field is never set.
The inner Option is the Go statement pointer (none is nil); the outer
none means the skipping loop exhausted its fuel. -/
def parseLetStatement (fuel : Nat) (p : Parser) : Option (Option ast.Statement × Parser) :=
  let tok := p.curToken
  let r1 := expectPeek token.IDENT p
  if r1.1 = false then some (none, r1.2) else
  let p1 := r1.2
  let name : ast.Identifier := { tok := p1.curToken, value := p1.curToken.literal }
  let r2 := expectPeek token.ASSIGN p1
  if r2.1 = false then some (none, r2.2) else
  (skipToSemicolon fuel r2.2).map
    (fun p3 => (some (ast.Statement.LetStatement tok name none), p3))

/-- parseReturnStatement from parser/parser.go: advance once, then skip to
the next semicolon; the ReturnValue field is never set. -/
def parseReturnStatement (fuel : Nat) (p : Parser) : Option (Option ast.Statement × Parser) :=
  let tok := p.curToken
  let p1 := nextToken p
  (skipToSemicolon fuel p1).map
    (fun p2 => (some (ast.Statement.ReturnStatement tok none), p2))

/-- parseStatement from parser/parser.go: dispatch on the current token
kind; the default case of the switch returns a nil statement. -/
def parseStatement (fuel : Nat) (p : Parser) : Option (Option ast.Statement × Parser) :=
  if p.curToken.typ == token.LET then parseLetStatement fuel p
  else if p.curToken.typ == token.RETURN then parseReturnStatement fuel p
  else some (none, p)

/-- The loop of ParseProgram from parser/parser.go: until the current token
is the end-of-input token, parse a statement, append it when it is not nil,
and advance.  none means the fuel ran out before the loop finished. -/
def parseProgramLoop : Nat → Parser → List ast.Statement → Option (ast.Program × Parser)
  | 0, _, _ => none
  | fuel + 1, p, acc =>
    if p.curToken.typ == token.EOF then some ({ statements := acc }, p)
    else (parseStatement fuel p).bind (fun r =>
      parseProgramLoop fuel (nextToken r.2)
        (match r.1 with
         | some s => acc ++ [s]
         | none => acc))

/-- ParseProgram from parser/parser.go, with the final parser state kept so
its diagnostics stay observable. -/
def ParseProgram (fuel : Nat) (p : Parser) : Option (ast.Program × Parser) :=
  parseProgramLoop fuel p []

/-- The whole front end on one input: build the lexer, build the parser,
parse the program. -/
def parse (input : String) (fuel : Nat) : Option (ast.Program × Parser) :=
  ParseProgram fuel (New (lexer.New input))

end parser

/-- The character list of the semicolon-less input of the divergence claim. -/
def letx5Input : List Char := ['l', 'e', 't', ' ', 'x', ' ', '=', ' ', '5']

/-- The parser state for that input right after construction (checked below
against parser.New by evaluation). -/
def lp0Lit : parser.Parser :=
  { l := { input := letx5Input, position := 5, readPosition := 6, ch := ' ' }
    curToken := { typ := "LET", literal := "let" }
    peekToken := { typ := "IDENT", literal := "x" }
    errors := [] }

/-- The state after the identifier has been accepted. -/
def p1Lit : parser.Parser :=
  { l := { input := letx5Input, position := 7, readPosition := 8, ch := ' ' }
    curToken := { typ := "IDENT", literal := "x" }
    peekToken := { typ := "=", literal := "=" }
    errors := [] }

/-- The state after the assignment token has been accepted: the state on
which the statement-skipping loop starts, with no semicolon ahead. -/
def stuckLit : parser.Parser :=
  { l := { input := letx5Input, position := 9, readPosition := 10, ch := Char.ofNat 0 }
    curToken := { typ := "=", literal := "=" }
    peekToken := { typ := "INT", literal := "5" }
    errors := [] }

lemma skipWhitespaceAux_id (n : Nat) (l : lexer.Lexer) (h : lexer.isWhitespaceChar l.ch = false) :
    lexer.skipWhitespaceAux n l = l := by
  cases n with
  | zero => rfl
  | succ k => simp [lexer.skipWhitespaceAux, h]

lemma skipWhitespace_id (l : lexer.Lexer) (h : lexer.isWhitespaceChar l.ch = false) :
    lexer.skipWhitespace l = l :=
  skipWhitespaceAux_id _ l h

lemma nextToken_atEnd (l : lexer.Lexer) (h : lexer.atEnd l) :
    lexer.NextToken l = ({ typ := token.EOF, literal := "" }, lexer.readChar l) ∧
      lexer.atEnd (lexer.readChar l) := by
  obtain ⟨inp, pos, rp, ch⟩ := l
  obtain ⟨h1, h2, h3⟩ := h
  simp only at h1 h2 h3
  subst h3
  subst h2
  constructor
  · rfl
  · refine ⟨?_, rfl, ?_⟩
    · show inp.length ≤ pos + 1
      omega
    · show (if inp.length ≤ pos + 1 then Char.ofNat 0 else inp.getD (pos + 1) (Char.ofNat 0)) = Char.ofNat 0
      rw [if_pos (by omega)]

lemma eofStationary : ∀ (m : Nat) (p : parser.Parser),
    p.curToken.typ = token.EOF → p.peekToken = { typ := token.EOF, literal := "" } →
    lexer.atEnd p.l → parser.skipToSemicolon m p = none := by
  intro m
  induction m with
  | zero => intro p _ _ _; rfl
  | succ k ih =>
    intro p h1 h2 h3
    have hc : parser.curTokenIs p token.SEMICOLON = false := by
      rw [parser.curTokenIs, h1]
      rfl
    rw [parser.skipToSemicolon, hc]
    simp only [Bool.false_eq_true, if_false]
    apply ih
    · show p.peekToken.typ = token.EOF
      rw [h2]
    · show (lexer.NextToken p.l).1 = { typ := token.EOF, literal := "" }
      rw [(nextToken_atEnd p.l h3).1]
    · show lexer.atEnd (lexer.NextToken p.l).2
      rw [(nextToken_atEnd p.l h3).1]
      exact (nextToken_atEnd p.l h3).2

lemma skipStuckLit : ∀ m, parser.skipToSemicolon m stuckLit = none := by
  intro m
  match m with
  | 0 => rfl
  | 1 => rfl
  | (k + 2) =>
    have h2 : parser.skipToSemicolon (k + 2) stuckLit =
        parser.skipToSemicolon k (parser.nextToken (parser.nextToken stuckLit)) := rfl
    rw [h2]
    exact eofStationary k _ (by decide) (by decide) (by decide)

/-- Claim C1: the spec requires termination on every finite input with a
diagnostic when the end of input arrives mid-construct, but the code loops
forever on the semicolon-less input: for every fuel bound, the embedded
ParseProgram fails to finish, because the skip-to-semicolon loop of
parseLetStatement never sees a semicolon once the token stream is stuck on
the end-of-input token. -/
theorem parseProgram_letMissingSemicolon_diverges :
    ∀ fuel, parser.parse ("let x = 5") fuel = none := by
  intro fuel
  match fuel with
  | 0 => rfl
  | (n + 1) =>
    have eA : parser.parse ("let x = 5") (n + 1) =
        parser.parseProgramLoop (n + 1) (parser.New (lexer.New ("let x = 5"))) [] := rfl
    have hNew : parser.New (lexer.New ("let x = 5")) = lp0Lit := by decide
    rw [eA, hNew]
    have eC : parser.parseProgramLoop (n + 1) lp0Lit [] =
        (parser.parseStatement n lp0Lit).bind (fun r =>
          parser.parseProgramLoop n (parser.nextToken r.2)
            (match r.1 with
             | some s => [] ++ [s]
             | none => ([] : List ast.Statement))) := rfl
    rw [eC]
    have hr1 : parser.expectPeek token.IDENT lp0Lit = (true, p1Lit) := by decide
    have hr2 : parser.expectPeek token.ASSIGN p1Lit = (true, stuckLit) := by decide
    have eE : parser.parseStatement n lp0Lit =
        (parser.skipToSemicolon n stuckLit).map
          (fun p3 => (some (ast.Statement.LetStatement { typ := "LET", literal := "let" }
            { tok := { typ := "IDENT", literal := "x" }, value := "x" } none), p3)) := by
      simp only [parser.parseStatement, parser.parseLetStatement]
      rw [hr1, hr2]
      simp [lp0Lit, p1Lit, token.LET]
    rw [eE, skipStuckLit n]
    rfl

/-- Claim C2: the lexer does produce the integer token for the digit run,
but parseStatement returns a nil statement for every token kind other than
let and return, so parsing the input yields a program with no statements at
all instead of an expression statement holding an IntegerLiteral. -/
theorem expressionStatement_notParsed :
    (parser.parse ("12345;") 20).map (fun r => (r.1.statements, r.2.errors)) = some ([], []) ∧
    (lexer.NextToken (lexer.New ("12345;"))).1 = { typ := token.INT, literal := "12345" } :=
  ⟨rfl, rfl⟩

/-- Claim C3: parsing a well-formed let statement yields exactly one
LetStatement whose bound name renders to the identifier, but the Value
field is never set (the source skips expressions with a TODO), so the
statement renders with an empty value part instead of one structurally
consistent with the bound expression. -/
theorem letStatement_value_notParsed :
    (parser.parse ("let x = 5;") 20).map
      (fun r => (r.1.statements, ast.Program.render r.1, r.2.errors)) =
      some ([ast.Statement.LetStatement { typ := token.LET, literal := "let" }
               { tok := { typ := token.IDENT, literal := "x" }, value := "x" } none],
            "let x = ;", []) :=
  rfl

/-- Claim C4: the parser has no expression parsing at all, so the
precedence inputs do not produce any AST nodes: parsing the first listed
input yields a program with zero statements rendering to the empty string
instead of the parenthesized rendering the claim states. -/
theorem operatorPrecedence_notParsed :
    (parser.parse ("-a * b") 20).map (fun r => (r.1.statements, ast.Program.render r.1)) =
      some ([], "") :=
  rfl

/-- Claim C5: the malformed input with the missing assignment token yields
exactly one diagnostic naming the expected assignment token, and
ParseProgram still returns a Program node (here with no statements). -/
theorem letMissingAssign_diagnostic :
    (parser.parse ("let x 5;") 20).map (fun r => (r.1.statements, r.2.errors)) =
      some ([], ["expected next token to be =, got INT instead"]) :=
  rfl

/-- Claim C6: once the lexer has consumed all characters, every further
call of NextToken returns the end-of-input token with the empty literal:
lexing past the end is idempotent. -/
theorem nextToken_pastEnd_idempotent (l : lexer.Lexer) (h : lexer.atEnd l) (n : Nat) :
    (lexer.NextToken (lexer.lexSteps l n)).1 = { typ := token.EOF, literal := "" } := by
  have key : ∀ m, lexer.atEnd (lexer.lexSteps l m) := by
    intro m
    induction m with
    | zero => exact h
    | succ k ih =>
      show lexer.atEnd (lexer.NextToken (lexer.lexSteps l k)).2
      rw [(nextToken_atEnd _ ih).1]
      exact (nextToken_atEnd _ ih).2
  rw [(nextToken_atEnd _ (key n)).1]

theorem nextToken_pastEnd_idempotent_witness :
    lexer.atEnd (lexer.New ("")) ∧
      (lexer.NextToken (lexer.lexSteps (lexer.New ("")) 3)).1 = { typ := token.EOF, literal := "" } :=
  ⟨by decide, nextToken_pastEnd_idempotent (lexer.New ("")) (by decide) 3⟩

/-- Claim C7: the lexer does emit the unrecognized-character token carrying
the single character, but the parser records no diagnostic for it: the
parseStatement switch silently returns a nil statement for the ILLEGAL
token kind, so the error list stays empty, contrary to the claim. -/
theorem illegalChar_token_but_no_diagnostic :
    (lexer.NextToken (lexer.New ("@"))).1 = { typ := token.ILLIGAL, literal := "@" } ∧
    (parser.parse ("@") 20).map (fun r => (r.1.statements, r.2.errors)) = some ([], []) :=
  ⟨rfl, rfl⟩

/-- Claim C8: with the current character an assignment or bang character,
NextToken uses exactly one character of lookahead: when the peek character
is an equals sign it consumes both characters and emits the two-character
token, otherwise it consumes only the current character and emits the
one-character token, leaving the next character unconsumed. -/
theorem nextToken_eq_bang_lookahead (l : lexer.Lexer) (hrp : l.readPosition = l.position + 1)
    (hch : l.ch = '=' ∨ l.ch = '!') :
    (lexer.peekChar l = '=' →
      lexer.NextToken l =
        ({ typ := if l.ch = '=' then token.EQ else token.NOT_EQ, literal := String.mk [l.ch, '='] },
          lexer.readChar (lexer.readChar l)) ∧
      (lexer.readChar (lexer.readChar l)).position = l.position + 2) ∧
    (¬ lexer.peekChar l = '=' →
      lexer.NextToken l =
        ({ typ := if l.ch = '=' then token.ASSIGN else token.BANG, literal := String.mk [l.ch] },
          lexer.readChar l) ∧
      (lexer.readChar l).position = l.position + 1) := by
  obtain ⟨inp, pos, rp, ch⟩ := l
  simp only at hrp
  subst hrp
  rcases hch with h | h
  all_goals simp only at h
  all_goals subst h
  case inl =>
    have hsw : lexer.skipWhitespace { input := inp, position := pos, readPosition := pos + 1, ch := '=' }
        = { input := inp, position := pos, readPosition := pos + 1, ch := '=' } :=
      skipWhitespace_id { input := inp, position := pos, readPosition := pos + 1, ch := '=' } rfl
    have hpk : (lexer.readChar { input := inp, position := pos, readPosition := pos + 1, ch := '=' }).ch
        = lexer.peekChar { input := inp, position := pos, readPosition := pos + 1, ch := '=' } := rfl
    refine ⟨fun hp => ⟨?_, rfl⟩, fun hp => ⟨?_, rfl⟩⟩
    · simp only [lexer.NextToken, hsw]
      simp +decide [hpk, hp]
    · simp only [lexer.NextToken, hsw, lexer.newToken]
      simp +decide [hp]
  case inr =>
    have hsw : lexer.skipWhitespace { input := inp, position := pos, readPosition := pos + 1, ch := '!' }
        = { input := inp, position := pos, readPosition := pos + 1, ch := '!' } :=
      skipWhitespace_id { input := inp, position := pos, readPosition := pos + 1, ch := '!' } rfl
    have hpk : (lexer.readChar { input := inp, position := pos, readPosition := pos + 1, ch := '!' }).ch
        = lexer.peekChar { input := inp, position := pos, readPosition := pos + 1, ch := '!' } := rfl
    refine ⟨fun hp => ⟨?_, rfl⟩, fun hp => ⟨?_, rfl⟩⟩
    · simp only [lexer.NextToken, hsw]
      simp +decide [hpk, hp]
    · simp only [lexer.NextToken, hsw, lexer.newToken]
      simp +decide [hp]

theorem nextToken_eq_bang_lookahead_witness :
    lexer.NextToken (lexer.New ("==")) =
      ({ typ := token.EQ, literal := String.mk [(lexer.New ("==")).ch, '='] },
        lexer.readChar (lexer.readChar (lexer.New ("==")))) ∧
    (lexer.readChar (lexer.readChar (lexer.New ("==")))).position = (lexer.New ("==")).position + 2 :=
  (nextToken_eq_bang_lookahead (lexer.New ("==")) (by decide) (Or.inl (by decide))).1 (by decide)

/-- Claim C9 fails as stated: on an input whose first byte is NUL, the
state after the very first advance has the sentinel as current character
while readPosition does not exceed the input length, so the stated iff is
violated. -/
theorem readChar_invariant_counterexample :
    (lexer.New ("\x00a")).ch = Char.ofNat 0 ∧
      ¬ (lexer.New ("\x00a")).input.length < (lexer.New ("\x00a")).readPosition := by
  decide

/-- Claim C9 amended: after every readChar the relation
readPosition = position + 1 holds unconditionally, and for inputs that
contain no NUL character the current character is the sentinel exactly
when readPosition exceeds the input length. -/
theorem readChar_invariant_amended (l : lexer.Lexer) :
    (lexer.readChar l).readPosition = (lexer.readChar l).position + 1 ∧
    ((∀ c ∈ l.input, c ≠ Char.ofNat 0) →
      ((lexer.readChar l).ch = Char.ofNat 0 ↔ l.input.length < (lexer.readChar l).readPosition)) := by
  refine ⟨rfl, fun h => ?_⟩
  show (lexer.readChar l).ch = Char.ofNat 0 ↔ l.input.length < l.readPosition + 1
  by_cases hc : l.input.length ≤ l.readPosition
  · constructor
    · intro _
      omega
    · intro _
      simp [lexer.readChar, if_pos hc]
  · have hlt : l.readPosition < l.input.length := by omega
    have hget : (lexer.readChar l).ch = l.input[l.readPosition] := by
      simp [lexer.readChar, if_neg hc, List.getElem?_eq_getElem hlt]
    constructor
    · intro hzero
      exact absurd (hget ▸ hzero) (h _ (List.getElem_mem hlt))
    · intro hlen
      omega

theorem readChar_invariant_witness :
    (lexer.readChar { input := ['a'], position := 0, readPosition := 0, ch := 'a' }).readPosition
      = (lexer.readChar { input := ['a'], position := 0, readPosition := 0, ch := 'a' }).position + 1 ∧
    ((lexer.readChar { input := ['a'], position := 0, readPosition := 0, ch := 'a' }).ch = Char.ofNat 0 ↔
      (['a'] : List Char).length
        < (lexer.readChar { input := ['a'], position := 0, readPosition := 0, ch := 'a' }).readPosition) :=
  ⟨(readChar_invariant_amended _).1, (readChar_invariant_amended _).2 (by decide)⟩

/-- Claim C10 fails as stated: at an interior NUL byte NextToken does
return the end-of-input token, but the very next call tokenizes the
character after the NUL instead of returning the end-of-input token again. -/
theorem nulByte_counterexample :
    (lexer.NextToken (lexer.New ("\x00a"))).1.typ = token.EOF ∧
      (lexer.NextToken (lexer.NextToken (lexer.New ("\x00a"))).2).1
        = { typ := token.IDENT, literal := "a" } := by
  decide

/-- Claim C10 amended: whenever the current character is the NUL sentinel
(also at an interior NUL byte), NextToken returns the end-of-input token
with the empty literal and advances one character past it, so later calls
continue with the following characters rather than staying at the end. -/
theorem nulByte_eof_advances (l : lexer.Lexer) (h : l.ch = Char.ofNat 0) :
    lexer.NextToken l = ({ typ := token.EOF, literal := "" }, lexer.readChar l) ∧
      (lexer.NextToken l).2.position = l.readPosition := by
  obtain ⟨inp, pos, rp, ch⟩ := l
  simp only at h
  subst h
  exact ⟨rfl, rfl⟩

theorem nulByte_eof_advances_witness :
    lexer.NextToken (lexer.New ("\x00a")) =
      ({ typ := token.EOF, literal := "" }, lexer.readChar (lexer.New ("\x00a"))) ∧
    (lexer.NextToken (lexer.New ("\x00a"))).2.position = (lexer.New ("\x00a")).readPosition :=
  nulByte_eof_advances (lexer.New ("\x00a")) (by decide)
